import Mathlib

/-!
# Library Management System — shallow embedding

A shallow embedding of the domain model of `Library_Management_System.py`
(classes `Book`, `Member`, `Library`), together with theorems settling the
frozen claims about the specification.

Modelling conventions:
* Python's `dict` registries (`Library.books`, `Library.members`) are
  association lists kept in insertion order; keys are unique in every state
  reachable through the `Library` operations (adds check for the key first),
  so "update the dict entry" is "replace the first entry with that id" and
  `del` is "drop the entries with that id".
* Members hold live references to `Book` objects stored in the registry;
  since every borrowed book is an alias of its unique registry slot, the
  borrowed list is modelled as the list of book ids, resolved through the
  registry.  `book in borrowed_books` / `borrowed_books.remove(book)` become
  a membership test / first-occurrence removal on ids.
* Machine integers: ids are `Nat`, copy counts `Int` (nothing bounds them
  below through `Library.add_book`, which performs no validation).
* The regex `[A-Za-z .'-]+` (used with `re.fullmatch`) is "non-empty and
  every character is an ASCII letter, space, dot, apostrophe or hyphen".
-/

set_option autoImplicit false

namespace LMS

/-- `Book`: id, title (`name`), author, available-copies counter and the
append-only transaction log, as in `Book.__init__`. -/
structure Book where
  entity_id : Nat
  name : String
  author : String
  copies : Int
  borrow_history : List String
deriving Repr, DecidableEq

/-- `Member`: id, name, currently borrowed books (ids of the aliased
registry slots) and the activity log, as in `Member.__init__`. -/
structure Member where
  entity_id : Nat
  name : String
  borrowed_books : List Nat
  history : List String
deriving Repr, DecidableEq

/-- `Library`: the two registries, in insertion order. -/
structure Library where
  books : List Book
  members : List Member
deriving Repr, DecidableEq

/-- One character of the class `[A-Za-z .'-]`. -/
def isNameChar (c : Char) : Bool :=
  c.isAlpha || c == ' ' || c == '.' || c == '\x27' || c == '-'

/-- `re.fullmatch(r"[A-Za-z .'-]+", s)` succeeds. -/
def fullmatchName (s : String) : Bool :=
  !s.data.isEmpty && s.data.all isNameChar

/-- Dict lookup `books[book_id]` / membership `book_id in books`:
first entry with the given id. -/
def findBook : List Book → Nat → Option Book
  | [], _ => none
  | b :: rest, bid => if b.entity_id == bid then some b else findBook rest bid

/-- Dict lookup on the member registry. -/
def findMember : List Member → Nat → Option Member
  | [], _ => none
  | m :: rest, mid => if m.entity_id == mid then some m else findMember rest mid

/-- In-place mutation of the (unique) registry entry with id `bid`:
replace the first entry with that id. -/
def updateFirstBook : List Book → Nat → (Book → Book) → List Book
  | [], _, _ => []
  | b :: rest, bid, f =>
      if b.entity_id == bid then f b :: rest else b :: updateFirstBook rest bid f

/-- In-place mutation of the (unique) member entry with id `mid`. -/
def updateFirstMember : List Member → Nat → (Member → Member) → List Member
  | [], _, _ => []
  | m :: rest, mid, f =>
      if m.entity_id == mid then f m :: rest else m :: updateFirstMember rest mid f

/-- `del books[bid]`: drop the entries with that id. -/
def removeBookId (books : List Book) (bid : Nat) : List Book :=
  books.filter (fun b => b.entity_id != bid)

/-- `del members[mid]`. -/
def removeMemberId (members : List Member) (mid : Nat) : List Member :=
  members.filter (fun m => m.entity_id != mid)

/-- Number of occurrences of id `bid` in one borrowed list. -/
def countId (bid : Nat) : List Nat → Nat
  | [] => 0
  | x :: rest => (if x == bid then 1 else 0) + countId bid rest

/-- `book in borrowed_books` (identity-based membership, via ids). -/
def hasId (bid : Nat) : List Nat → Bool
  | [] => false
  | x :: rest => x == bid || hasId bid rest

/-- `borrowed_books.remove(book)`: drop the first occurrence. -/
def eraseFirst (bid : Nat) : List Nat → List Nat
  | [] => []
  | x :: rest => if x == bid then rest else x :: eraseFirst bid rest

/-- Outstanding loans of book `bid` across all members (the
`borrowed_count` sum computed inside `Library.update_book`). -/
def sumOutstanding : List Member → Nat → Nat
  | [], _ => 0
  | m :: rest, bid => countId bid m.borrowed_books + sumOutstanding rest bid

/-- The scan in `Library.remove_book`: some member currently holds a book
with id `bid`. -/
def anyHolds : List Member → Nat → Bool
  | [], _ => false
  | m :: rest, bid => hasId bid m.borrowed_books || anyHolds rest bid

/-- `Book.display_info`. -/
def Book.display_info (b : Book) : String :=
  "ID: " ++ toString b.entity_id ++ ", Title: " ++ b.name ++
    ", Author: " ++ b.author ++ ", Available Copies: " ++ toString b.copies

/-- `Member.borrow_book`: mutates the member and the (aliased) book, and
returns the status text; modelled as returning the new member, new book and
the message. -/
def Member.borrow_book (m : Member) (b : Book) : Member × Book × String :=
  if b.copies > 0 then
    ({ m with
        borrowed_books := m.borrowed_books ++ [b.entity_id],
        history := m.history ++ ["Borrowed \x27" ++ b.name ++ "\x27"] },
     { b with
        copies := b.copies - 1,
        borrow_history := b.borrow_history ++ [m.name ++ " borrowed this book"] },
     m.name ++ " borrowed \x27" ++ b.name ++ "\x27")
  else (m, b, "Book is not available")

/-- `Member.return_book`. -/
def Member.return_book (m : Member) (b : Book) : Member × Book × String :=
  if hasId b.entity_id m.borrowed_books then
    ({ m with
        borrowed_books := eraseFirst b.entity_id m.borrowed_books,
        history := m.history ++ ["Returned \x27" ++ b.name ++ "\x27"] },
     { b with
        copies := b.copies + 1,
        borrow_history := b.borrow_history ++ [m.name ++ " returned this book"] },
     m.name ++ " returned \x27" ++ b.name ++ "\x27")
  else (m, b, "This book was not borrowed by the member")

/-- `Library.add_book`. -/
def Library.add_book (lib : Library) (b : Book) : Library × String :=
  if (findBook lib.books b.entity_id).isSome then (lib, "Book ID already exists")
  else ({ lib with books := lib.books ++ [b] }, "Book added successfully")

/-- `Library.remove_book`. -/
def Library.remove_book (lib : Library) (bid : Nat) : Library × String :=
  if (findBook lib.books bid).isSome = false then (lib, "Book not found")
  else if anyHolds lib.members bid then
    (lib, "Cannot remove - book is currently borrowed")
  else ({ lib with books := removeBookId lib.books bid }, "Book removed successfully")

/-- The `if title:` block of `Library.update_book`: a provided, non-empty
title replaces the book's name unconditionally; `None` or `""` is "not
provided". -/
def updTitle (lib : Library) (bid : Nat) (title : Option String) : Library :=
  match title with
  | some t =>
      if t == "" then lib
      else { lib with books := updateFirstBook lib.books bid (fun b => { b with name := t }) }
  | none => lib

/-- The `if author:` block of `Library.update_book`: `none` here models the
early `return "Invalid author name"` (taken when a non-empty author fails
the pattern), `some` the state in which the block completed. -/
def updAuthor (lib : Library) (bid : Nat) (author : Option String) : Option Library :=
  match author with
  | some a =>
      if a == "" then some lib
      else if fullmatchName a then
        some { lib with books := updateFirstBook lib.books bid (fun b => { b with author := a }) }
      else none
  | none => some lib

/-- The `copies` block at the end of `Library.update_book` (runs after the
title and author blocks; `not isinstance(copies, int)` cannot fail in the
typed model, leaving the `copies < 0` test). -/
def updCopies (lib : Library) (bid : Nat) (copies : Option Int) : Library × String :=
  match copies with
  | none => (lib, "Book updated successfully")
  | some c =>
      if c < 0 then (lib, "Copies must be a positive integer")
      else
        let k := sumOutstanding lib.members bid
        if c < (k : Int) then
          (lib, "Cannot set copies to " ++ toString c ++ " as " ++ toString k ++
            " are currently borrowed")
        else
          ({ lib with books := updateFirstBook lib.books bid (fun b => { b with copies := c }) },
           "Book updated successfully")

/-- `Library.update_book`: the title block applies first; the author block
may then return early (`Invalid author name`) with the title change already
applied; the copies block runs last, on the state the first two produced. -/
def Library.update_book (lib : Library) (bid : Nat)
    (title author : Option String) (copies : Option Int) : Library × String :=
  match findBook lib.books bid with
  | none => (lib, "Book not found")
  | some _ =>
      let lib1 := updTitle lib bid title
      match updAuthor lib1 bid author with
      | none => (lib1, "Invalid author name")
      | some lib2 => updCopies lib2 bid copies

/-- `Library.add_member`. -/
def Library.add_member (lib : Library) (m : Member) : Library × String :=
  if (findMember lib.members m.entity_id).isSome then (lib, "Member ID already exists")
  else ({ lib with members := lib.members ++ [m] }, "Member added successfully")

/-- `Library.remove_member`. -/
def Library.remove_member (lib : Library) (mid : Nat) : Library × String :=
  match findMember lib.members mid with
  | none => (lib, "Member not found")
  | some m =>
      if m.borrowed_books.isEmpty = false then
        (lib, "Cannot remove member with borrowed books")
      else ({ lib with members := removeMemberId lib.members mid }, "Member removed successfully")

/-- `Library.update_member` (`if not name:` treats `None` and `""` as
"nothing to change"). -/
def Library.update_member (lib : Library) (mid : Nat) (name : Option String) :
    Library × String :=
  match findMember lib.members mid with
  | none => (lib, "Member not found")
  | some _ =>
      match name with
      | none => (lib, "No changes made")
      | some n =>
          if n == "" then (lib, "No changes made")
          else if fullmatchName n then
            ({ lib with members := updateFirstMember lib.members mid (fun m => { m with name := n }) },
             "Member updated successfully")
          else (lib, "Invalid name")

/-- `Library.issue_book`: member checked before book, then delegates to
`Member.borrow_book` on the aliased objects; the mutated member and book
are written back to their registry slots. -/
def Library.issue_book (lib : Library) (mid bid : Nat) : Library × String :=
  match findMember lib.members mid with
  | none => (lib, "Member not found")
  | some m =>
      match findBook lib.books bid with
      | none => (lib, "Book not found")
      | some b =>
          let r := m.borrow_book b
          ({ books := updateFirstBook lib.books bid (fun _ => r.2.1),
             members := updateFirstMember lib.members mid (fun _ => r.1) }, r.2.2)

/-- `Library.return_book`. -/
def Library.return_book (lib : Library) (mid bid : Nat) : Library × String :=
  match findMember lib.members mid with
  | none => (lib, "Member not found")
  | some m =>
      match findBook lib.books bid with
      | none => (lib, "Book not found")
      | some b =>
          let r := m.return_book b
          ({ books := updateFirstBook lib.books bid (fun _ => r.2.1),
             members := updateFirstMember lib.members mid (fun _ => r.1) }, r.2.2)

/-- `needle` occurs at the start of `hay`. -/
def leadsIn : List Char → List Char → Bool
  | [], _ => true
  | _ :: _, [] => false
  | c :: cs, h :: hs => c == h && leadsIn cs hs

/-- Substring test (Python's `needle in hay`) on character lists. -/
def substrHit : List Char → List Char → Bool
  | n, [] => n.isEmpty
  | n, h :: hs => leadsIn n (h :: hs) || substrHit n hs

/-- Python's (ASCII) `str.lower()`, as the character list of the string;
character-wise so that it computes in the kernel. -/
def lowerStr (s : String) : List Char := s.data.map Char.toLower

/-- The accumulation loop of `Library.search_books` (`kw` already
lower-cased). -/
def searchLoop (kw : List Char) : List Book → List String
  | [] => []
  | b :: rest =>
      if substrHit kw (lowerStr b.name) || substrHit kw (lowerStr b.author)
      then b.display_info :: searchLoop kw rest
      else searchLoop kw rest

/-- `Library.search_books`. -/
def Library.search_books (lib : Library) (keyword : String) : List String :=
  let kw := lowerStr keyword
  let results := searchLoop kw lib.books
  if results.isEmpty then ["No matching books found"] else results

/-- The catalog operations a client can perform; `addBook`/`addMember`
construct fresh entities exactly as the call sites do
(`Book(id, title, author, copies)` with an empty history). -/
inductive Op where
  | addBook (id : Nat) (title author : String) (copies : Int)
  | removeBook (id : Nat)
  | updateBook (id : Nat) (title author : Option String) (copies : Option Int)
  | addMember (id : Nat) (name : String)
  | removeMember (id : Nat)
  | updateMember (id : Nat) (name : Option String)
  | issueBook (mid bid : Nat)
  | returnBook (mid bid : Nat)
deriving Repr, DecidableEq

/-- State transition of one operation (the returned status is dropped). -/
def applyOp (lib : Library) : Op → Library
  | .addBook i t a c => (lib.add_book ⟨i, t, a, c, []⟩).1
  | .removeBook i => (lib.remove_book i).1
  | .updateBook i t a c => (lib.update_book i t a c).1
  | .addMember i n => (lib.add_member ⟨i, n, [], []⟩).1
  | .removeMember i => (lib.remove_member i).1
  | .updateMember i n => (lib.update_member i n).1
  | .issueBook mid bid => (lib.issue_book mid bid).1
  | .returnBook mid bid => (lib.return_book mid bid).1

/-- The catalog created at process start. -/
def emptyLibrary : Library := ⟨[], []⟩

/-- The state reached by a sequence of operations from the empty catalog. -/
def runOps (ops : List Op) : Library := ops.foldl applyOp emptyLibrary

/-- Available copies of book `bid` plus its outstanding loans — the
conserved quantity of the borrow/return ledger. -/
def availPlusOut (lib : Library) (bid : Nat) : Int :=
  (match findBook lib.books bid with
   | some b => b.copies
   | none => 0) + (sumOutstanding lib.members bid : Int)

/-- Every book in the registry has a non-negative copies counter. -/
def allCopiesNonneg (lib : Library) : Bool :=
  lib.books.all (fun b => 0 ≤ b.copies)

/-- Every `addBook` in the sequence supplies non-negative copies. -/
def opsNonneg : List Op → Bool
  | [] => true
  | .addBook _ _ _ c :: rest => (0 ≤ c) && opsNonneg rest
  | _ :: rest => opsNonneg rest

/-- One operation supplies non-negative copies (only `addBook` carries a
copies argument). -/
def opNonneg : Op → Bool
  | .addBook _ _ _ c => 0 ≤ c
  | _ => true

/-- The author argument of `update_book` passes its check: absent, empty
(treated as "not provided") or matching the name pattern. -/
def authorPass : Option String → Bool
  | none => true
  | some a => a == "" || fullmatchName a

/-- Concrete states used to witness the theorems below. -/
def wbook : Book := ⟨1, "Python Programming", "John Doe", 3, []⟩

def wmember : Member := ⟨101, "Alice", [], []⟩

def wlib : Library := ⟨[wbook], [wmember]⟩

/-- A state in which Alice currently holds one copy of book 1
(as produced by an `addBook`/`addMember`/`issueBook` prefix). -/
def wbook2 : Book := ⟨1, "T", "A", 2, ["Alice borrowed this book"]⟩

def wmember2 : Member := ⟨101, "Alice", [1], ["Borrowed \x27T\x27"]⟩

def wlib2 : Library := ⟨[wbook2], [wmember2]⟩

/-- A state whose only book has no available copies. -/
def wbook0 : Book := ⟨1, "T", "A", 0, []⟩

def wlib0 : Library := ⟨[wbook0], [wmember]⟩

theorem findBook_eq_id {books : List Book} {bid : Nat} {b : Book}
    (h : findBook books bid = some b) : b.entity_id = bid := by
  induction books with
  | nil => simp [findBook] at h
  | cons x rest ih =>
      cases hx : x.entity_id == bid <;> simp [findBook, hx] at h
      · exact ih h
      · subst h; simpa using hx

theorem findMember_eq_id {members : List Member} {mid : Nat} {m : Member}
    (h : findMember members mid = some m) : m.entity_id = mid := by
  induction members with
  | nil => simp [findMember] at h
  | cons x rest ih =>
      cases hx : x.entity_id == mid <;> simp [findMember, hx] at h
      · exact ih h
      · subst h; simpa using hx

theorem updateFirstBook_of_none {books : List Book} {bid : Nat}
    (h : findBook books bid = none) (f : Book → Book) :
    updateFirstBook books bid f = books := by
  induction books with
  | nil => rfl
  | cons x rest ih =>
      cases hx : x.entity_id == bid <;> simp [findBook, hx] at h
      simp [updateFirstBook, hx, ih h]

theorem updateFirstMember_of_none {members : List Member} {mid : Nat}
    (h : findMember members mid = none) (f : Member → Member) :
    updateFirstMember members mid f = members := by
  induction members with
  | nil => rfl
  | cons x rest ih =>
      cases hx : x.entity_id == mid <;> simp [findMember, hx] at h
      simp [updateFirstMember, hx, ih h]

theorem findBook_updateFirstBook_self {books : List Book} {bid : Nat} {b : Book}
    (h : findBook books bid = some b) {f : Book → Book}
    (hf : (f b).entity_id = b.entity_id) :
    findBook (updateFirstBook books bid f) bid = some (f b) := by
  induction books with
  | nil => simp [findBook] at h
  | cons x rest ih =>
      cases hx : x.entity_id == bid <;> simp [findBook, hx] at h
      · simp [updateFirstBook, hx, findBook, ih h]
      · subst h
        have hxid : x.entity_id = bid := by simpa using hx
        have hid : ((f x).entity_id == bid) = true := by simp [hf, hxid]
        simp [updateFirstBook, hx, findBook, hid]

theorem findMember_updateFirstMember_self {members : List Member} {mid : Nat} {m : Member}
    (h : findMember members mid = some m) {f : Member → Member}
    (hf : (f m).entity_id = m.entity_id) :
    findMember (updateFirstMember members mid f) mid = some (f m) := by
  induction members with
  | nil => simp [findMember] at h
  | cons x rest ih =>
      cases hx : x.entity_id == mid <;> simp [findMember, hx] at h
      · simp [updateFirstMember, hx, findMember, ih h]
      · subst h
        have hxid : x.entity_id = mid := by simpa using hx
        have hid : ((f x).entity_id == mid) = true := by simp [hf, hxid]
        simp [updateFirstMember, hx, findMember, hid]

theorem findBook_updateFirstBook_other {books : List Book} {bid : Nat} {b : Book}
    (h : findBook books bid = some b) {f : Book → Book}
    (hf : (f b).entity_id = b.entity_id) {tid : Nat} (ht : tid ≠ bid) :
    findBook (updateFirstBook books bid f) tid = findBook books tid := by
  induction books with
  | nil => rfl
  | cons x rest ih =>
      cases hx : x.entity_id == bid <;> simp [findBook, hx] at h
      · simp [updateFirstBook, hx, findBook, ih h]
      · subst h
        have hxid : x.entity_id = bid := by simpa using hx
        have h1 : (x.entity_id == tid) = false := by
          simp [hxid]; exact fun hcon => ht hcon.symm
        have h2 : ((f x).entity_id == tid) = false := by
          simp [hf, hxid]; exact fun hcon => ht hcon.symm
        simp [updateFirstBook, hx, findBook, h1, h2]

theorem findMember_updateFirstMember_other {members : List Member} {mid : Nat} {m : Member}
    (h : findMember members mid = some m) {f : Member → Member}
    (hf : (f m).entity_id = m.entity_id) {tid : Nat} (ht : tid ≠ mid) :
    findMember (updateFirstMember members mid f) tid = findMember members tid := by
  induction members with
  | nil => rfl
  | cons x rest ih =>
      cases hx : x.entity_id == mid <;> simp [findMember, hx] at h
      · simp [updateFirstMember, hx, findMember, ih h]
      · subst h
        have hxid : x.entity_id = mid := by simpa using hx
        have h1 : (x.entity_id == tid) = false := by
          simp [hxid]; exact fun hcon => ht hcon.symm
        have h2 : ((f x).entity_id == tid) = false := by
          simp [hf, hxid]; exact fun hcon => ht hcon.symm
        simp [updateFirstMember, hx, findMember, h1, h2]

theorem updateFirstBook_self_eq {books : List Book} {bid : Nat} {b : Book}
    (h : findBook books bid = some b) {f : Book → Book} (hf : f b = b) :
    updateFirstBook books bid f = books := by
  induction books with
  | nil => rfl
  | cons x rest ih =>
      cases hx : x.entity_id == bid <;> simp [findBook, hx] at h
      · simp [updateFirstBook, hx, ih h]
      · subst h; simp [updateFirstBook, hx, hf]

theorem updateFirstMember_self_eq {members : List Member} {mid : Nat} {m : Member}
    (h : findMember members mid = some m) {f : Member → Member} (hf : f m = m) :
    updateFirstMember members mid f = members := by
  induction members with
  | nil => rfl
  | cons x rest ih =>
      cases hx : x.entity_id == mid <;> simp [findMember, hx] at h
      · simp [updateFirstMember, hx, ih h]
      · subst h; simp [updateFirstMember, hx, hf]

theorem sumOutstanding_updateFirstMember {members : List Member} {mid : Nat} {m : Member}
    (h : findMember members mid = some m) (f : Member → Member) (bid : Nat) :
    sumOutstanding (updateFirstMember members mid f) bid + countId bid m.borrowed_books
      = sumOutstanding members bid + countId bid (f m).borrowed_books := by
  induction members with
  | nil => simp [findMember] at h
  | cons x rest ih =>
      cases hx : x.entity_id == mid <;> simp [findMember, hx] at h
      · have hrec := ih h
        simp [updateFirstMember, hx, sumOutstanding]
        omega
      · subst h; simp [updateFirstMember, hx, sumOutstanding]; omega

theorem countId_append (bid : Nat) (l : List Nat) (x : Nat) :
    countId bid (l ++ [x]) = countId bid l + (if x == bid then 1 else 0) := by
  induction l with
  | nil => simp [countId]
  | cons y rest ih => simp [countId, ih]; omega

theorem hasId_eq_false_iff (bid : Nat) (l : List Nat) :
    hasId bid l = false ↔ countId bid l = 0 := by
  induction l with
  | nil => simp [hasId, countId]
  | cons y rest ih =>
      cases hy : y == bid <;> simp [hasId, countId, hy, ih]

theorem hasId_append_self (bid : Nat) (l : List Nat) : hasId bid (l ++ [bid]) = true := by
  induction l with
  | nil => simp [hasId]
  | cons y rest ih => simp [hasId, ih]

theorem countId_eraseFirst_self {bid : Nat} {l : List Nat} (h : hasId bid l = true) :
    countId bid (eraseFirst bid l) + 1 = countId bid l := by
  induction l with
  | nil => simp [hasId] at h
  | cons y rest ih =>
      cases hy : y == bid <;> simp [hasId, hy] at h
      · simp [eraseFirst, hy, countId, ih h]
      · simp [eraseFirst, hy, countId]; omega

theorem countId_eraseFirst_other {tid bid : Nat} (h : tid ≠ bid) (l : List Nat) :
    countId tid (eraseFirst bid l) = countId tid l := by
  induction l with
  | nil => rfl
  | cons y rest ih =>
      cases hy : y == bid
      · simp [eraseFirst, hy, countId, ih]
      · have : (y == tid) = false := by
          have hyb : y = bid := by simpa using hy
          simp [hyb]; exact fun hcon => h hcon.symm
        simp [eraseFirst, hy, countId, this]

theorem eraseFirst_append_of_countZero {bid : Nat} {l : List Nat} (h : countId bid l = 0) :
    eraseFirst bid (l ++ [bid]) = l := by
  induction l with
  | nil => simp [eraseFirst]
  | cons y rest ih =>
      cases hy : y == bid <;> simp [countId, hy] at h
      simp [eraseFirst, hy, ih h]

theorem findBook_removeBookId_self (books : List Book) (bid : Nat) :
    findBook (removeBookId books bid) bid = none := by
  induction books with
  | nil => rfl
  | cons x rest ih =>
      cases hx : x.entity_id == bid
      · have hcond : (x.entity_id != bid) = true := by simp [bne, hx]
        simp only [removeBookId, List.filter_cons, hcond, if_true] at *
        simp [findBook, hx, ih]
      · have hcond : (x.entity_id != bid) = false := by simp [bne, hx]
        simp only [removeBookId, List.filter_cons, hcond] at *
        simpa using ih

theorem findBook_removeBookId_other {tid bid : Nat} (ht : tid ≠ bid) (books : List Book) :
    findBook (removeBookId books bid) tid = findBook books tid := by
  induction books with
  | nil => rfl
  | cons x rest ih =>
      cases hx : x.entity_id == bid
      · have hcond : (x.entity_id != bid) = true := by simp [bne, hx]
        simp only [removeBookId, List.filter_cons, hcond, if_true] at *
        cases hxt : x.entity_id == tid <;> simp [findBook, hxt, ih]
      · have hxid : x.entity_id = bid := by simpa using hx
        have hxt : (x.entity_id == tid) = false := by
          simp [hxid]; exact fun hcon => ht hcon.symm
        have hcond : (x.entity_id != bid) = false := by simp [bne, hx]
        simp only [removeBookId, List.filter_cons, hcond] at *
        simp [findBook, hxt, ih]

theorem all_filter_sub {α : Type} {l : List α} {P : α → Bool} (hall : l.all P = true)
    (q : α → Bool) : (l.filter q).all P = true := by
  induction l with
  | nil => rfl
  | cons x rest ih =>
      simp only [List.all_cons, Bool.and_eq_true] at hall
      cases hq : q x <;> simp [List.filter_cons, hq, List.all_cons, hall.1, ih hall.2]

theorem all_updateFirstBook {books : List Book} {P : Book → Bool} (hall : books.all P = true)
    {bid : Nat} {b : Book} (h : findBook books bid = some b) {f : Book → Book}
    (hfb : P (f b) = true) : (updateFirstBook books bid f).all P = true := by
  induction books with
  | nil => rfl
  | cons x rest ih =>
      simp only [List.all_cons, Bool.and_eq_true] at hall
      cases hx : x.entity_id == bid <;> simp [findBook, hx] at h
      · simp [updateFirstBook, hx, List.all_cons, hall.1, ih hall.2 h]
      · subst h; simp [updateFirstBook, hx, List.all_cons, hfb, hall.2]

theorem findBook_all {books : List Book} {P : Book → Bool} {bid : Nat} {b : Book}
    (h : findBook books bid = some b) (hall : books.all P = true) : P b = true := by
  induction books with
  | nil => simp [findBook] at h
  | cons x rest ih =>
      simp only [List.all_cons, Bool.and_eq_true] at hall
      cases hx : x.entity_id == bid <;> simp [findBook, hx] at h
      · exact ih h hall.2
      · subst h; exact hall.1

theorem substrHit_nil (hay : List Char) : substrHit [] hay = true := by
  cases hay <;> simp [substrHit, leadsIn]

theorem searchLoop_eq (kw : List Char) (books : List Book) :
    searchLoop kw books
      = (books.filter (fun b =>
          substrHit kw (lowerStr b.name) ||
          substrHit kw (lowerStr b.author))).map Book.display_info := by
  induction books with
  | nil => rfl
  | cons b rest ih =>
      cases hmb : (substrHit kw (lowerStr b.name) ||
          substrHit kw (lowerStr b.author)) <;>
        simp [searchLoop, List.filter_cons, hmb, ih]

theorem display_info_ne_sentinel (b : Book) :
    Book.display_info b ≠ "No matching books found" := by
  intro h
  have h2 : (Book.display_info b).data.head? = ("No matching books found" : String).data.head? :=
    congrArg (fun s => s.data.head?) h
  have h3 : some 'I' = some 'N' := h2
  simp at h3

/-- The write-back at the end of `issue_book`/`return_book` preserves
`availPlusOut` whenever the new member/book pair preserves the per-book
ledger balance. -/
theorem availPlusOut_writeback {lib : Library} {mid bid : Nat} {m m' : Member} {b b' : Book}
    (hm : findMember lib.members mid = some m) (hb : findBook lib.books bid = some b)
    (hbid : b'.entity_id = b.entity_id)
    (h1 : b'.copies + (countId bid m'.borrowed_books : Int)
            = b.copies + (countId bid m.borrowed_books : Int))
    (h2 : ∀ t, t ≠ bid → countId t m'.borrowed_books = countId t m.borrowed_books)
    (target : Nat) :
    availPlusOut ⟨updateFirstBook lib.books bid (fun _ => b'),
                  updateFirstMember lib.members mid (fun _ => m')⟩ target
      = availPlusOut lib target := by
  have hsum := sumOutstanding_updateFirstMember hm (fun _ => m') target
  by_cases ht : target = bid
  · subst ht
    have hfind := @findBook_updateFirstBook_self _ _ _ hb (fun _ => b') hbid
    simp only [availPlusOut, hfind, hb]
    omega
  · have hfind := @findBook_updateFirstBook_other _ _ _ hb (fun _ => b') hbid _ ht
    simp only [availPlusOut, hfind]
    have := h2 target ht
    cases findBook lib.books target <;> simp only [] <;> omega

theorem availPlusOut_issue (lib : Library) (mid bid target : Nat) :
    availPlusOut (lib.issue_book mid bid).1 target = availPlusOut lib target := by
  cases hm : findMember lib.members mid with
  | none => simp [Library.issue_book, hm]
  | some m =>
      cases hb : findBook lib.books bid with
      | none => simp [Library.issue_book, hm, hb]
      | some b =>
          obtain rfl : b.entity_id = bid := findBook_eq_id hb
          by_cases hc : b.copies > 0
          · simp only [Library.issue_book, hm, hb, Member.borrow_book, hc, if_true]
            refine availPlusOut_writeback hm hb ?_ ?_ ?_ target
            · rfl
            · rw [countId_append]; simp
            · intro t htne
              rw [countId_append]
              have hne : (b.entity_id == t) = false := by
                simp; exact fun hcon => htne hcon.symm
              simp [hne]
          · simp only [Library.issue_book, hm, hb, Member.borrow_book, hc, if_false]
            refine availPlusOut_writeback hm hb ?_ ?_ (fun t _ => rfl) target
            · rfl
            · rfl

theorem availPlusOut_return (lib : Library) (mid bid target : Nat) :
    availPlusOut (lib.return_book mid bid).1 target = availPlusOut lib target := by
  cases hm : findMember lib.members mid with
  | none => simp [Library.return_book, hm]
  | some m =>
      cases hb : findBook lib.books bid with
      | none => simp [Library.return_book, hm, hb]
      | some b =>
          obtain rfl : b.entity_id = bid := findBook_eq_id hb
          cases hh : hasId b.entity_id m.borrowed_books
          · simp only [Library.return_book, hm, hb, Member.return_book, hh, Bool.false_eq_true,
              if_false]
            refine availPlusOut_writeback hm hb ?_ ?_ (fun t _ => rfl) target
            · rfl
            · rfl
          · simp only [Library.return_book, hm, hb, Member.return_book, hh, if_true]
            refine availPlusOut_writeback hm hb ?_ ?_ ?_ target
            · rfl
            · have := countId_eraseFirst_self hh
              dsimp only
              omega
            · intro t htne
              exact countId_eraseFirst_other htne _

theorem issue_book_success {lib : Library} {mid bid : Nat} {m : Member} {b : Book}
    (hm : findMember lib.members mid = some m) (hb : findBook lib.books bid = some b)
    (hc : b.copies > 0) :
    lib.issue_book mid bid =
      (⟨updateFirstBook lib.books bid (fun _ =>
          { b with copies := b.copies - 1,
                   borrow_history := b.borrow_history ++ [m.name ++ " borrowed this book"] }),
        updateFirstMember lib.members mid (fun _ =>
          { m with borrowed_books := m.borrowed_books ++ [bid],
                   history := m.history ++ ["Borrowed \x27" ++ b.name ++ "\x27"] })⟩,
       m.name ++ " borrowed \x27" ++ b.name ++ "\x27") := by
  obtain rfl : b.entity_id = bid := findBook_eq_id hb
  simp only [Library.issue_book, hm, hb, Member.borrow_book, hc, if_true]

theorem issue_book_unavailable {lib : Library} {mid bid : Nat} {m : Member} {b : Book}
    (hm : findMember lib.members mid = some m) (hb : findBook lib.books bid = some b)
    (hc : ¬ b.copies > 0) :
    lib.issue_book mid bid = (lib, "Book is not available") := by
  simp only [Library.issue_book, hm, hb, Member.borrow_book, hc, if_false]
  rw [updateFirstBook_self_eq hb rfl, updateFirstMember_self_eq hm rfl]

theorem return_book_success {lib : Library} {mid bid : Nat} {m : Member} {b : Book}
    (hm : findMember lib.members mid = some m) (hb : findBook lib.books bid = some b)
    (hh : hasId bid m.borrowed_books = true) :
    lib.return_book mid bid =
      (⟨updateFirstBook lib.books bid (fun _ =>
          { b with copies := b.copies + 1,
                   borrow_history := b.borrow_history ++ [m.name ++ " returned this book"] }),
        updateFirstMember lib.members mid (fun _ =>
          { m with borrowed_books := eraseFirst bid m.borrowed_books,
                   history := m.history ++ ["Returned \x27" ++ b.name ++ "\x27"] })⟩,
       m.name ++ " returned \x27" ++ b.name ++ "\x27") := by
  obtain rfl : b.entity_id = bid := findBook_eq_id hb
  simp only [Library.return_book, hm, hb, Member.return_book, hh, if_true]

theorem return_book_not_borrowed {lib : Library} {mid bid : Nat} {m : Member} {b : Book}
    (hm : findMember lib.members mid = some m) (hb : findBook lib.books bid = some b)
    (hh : hasId bid m.borrowed_books = false) :
    lib.return_book mid bid = (lib, "This book was not borrowed by the member") := by
  obtain rfl : b.entity_id = bid := findBook_eq_id hb
  simp only [Library.return_book, hm, hb, Member.return_book, hh, Bool.false_eq_true, if_false]
  rw [updateFirstBook_self_eq hb rfl, updateFirstMember_self_eq hm rfl]

theorem issue_success_findBook {lib : Library} {mid bid : Nat} {m : Member} {b : Book}
    (hm : findMember lib.members mid = some m) (hb : findBook lib.books bid = some b)
    (hc : b.copies > 0) :
    findBook (lib.issue_book mid bid).1.books bid =
      some { b with copies := b.copies - 1,
                    borrow_history := b.borrow_history ++ [m.name ++ " borrowed this book"] } := by
  rw [issue_book_success hm hb hc]
  dsimp only
  refine findBook_updateFirstBook_self hb ?_
  rfl

theorem issue_success_findMember {lib : Library} {mid bid : Nat} {m : Member} {b : Book}
    (hm : findMember lib.members mid = some m) (hb : findBook lib.books bid = some b)
    (hc : b.copies > 0) :
    findMember (lib.issue_book mid bid).1.members mid =
      some { m with borrowed_books := m.borrowed_books ++ [bid],
                    history := m.history ++ ["Borrowed \x27" ++ b.name ++ "\x27"] } := by
  rw [issue_book_success hm hb hc]
  dsimp only
  refine findMember_updateFirstMember_self hm ?_
  rfl

theorem issue_success_sum {lib : Library} {mid bid : Nat} {m : Member} {b : Book}
    (hm : findMember lib.members mid = some m) (hb : findBook lib.books bid = some b)
    (hc : b.copies > 0) :
    sumOutstanding (lib.issue_book mid bid).1.members bid
      = sumOutstanding lib.members bid + 1 := by
  rw [issue_book_success hm hb hc]
  dsimp only
  have hsum := sumOutstanding_updateFirstMember hm
    (fun _ => { m with borrowed_books := m.borrowed_books ++ [bid],
                       history := m.history ++ ["Borrowed \x27" ++ b.name ++ "\x27"] }) bid
  dsimp only at hsum
  rw [countId_append] at hsum
  simp at hsum
  omega

theorem return_success_findBook {lib : Library} {mid bid : Nat} {m : Member} {b : Book}
    (hm : findMember lib.members mid = some m) (hb : findBook lib.books bid = some b)
    (hh : hasId bid m.borrowed_books = true) :
    findBook (lib.return_book mid bid).1.books bid =
      some { b with copies := b.copies + 1,
                    borrow_history := b.borrow_history ++ [m.name ++ " returned this book"] } := by
  rw [return_book_success hm hb hh]
  dsimp only
  refine findBook_updateFirstBook_self hb ?_
  rfl

theorem return_success_findMember {lib : Library} {mid bid : Nat} {m : Member} {b : Book}
    (hm : findMember lib.members mid = some m) (hb : findBook lib.books bid = some b)
    (hh : hasId bid m.borrowed_books = true) :
    findMember (lib.return_book mid bid).1.members mid =
      some { m with borrowed_books := eraseFirst bid m.borrowed_books,
                    history := m.history ++ ["Returned \x27" ++ b.name ++ "\x27"] } := by
  rw [return_book_success hm hb hh]
  dsimp only
  refine findMember_updateFirstMember_self hm ?_
  rfl

theorem return_success_sum {lib : Library} {mid bid : Nat} {m : Member} {b : Book}
    (hm : findMember lib.members mid = some m) (hb : findBook lib.books bid = some b)
    (hh : hasId bid m.borrowed_books = true) :
    sumOutstanding (lib.return_book mid bid).1.members bid + 1
      = sumOutstanding lib.members bid := by
  rw [return_book_success hm hb hh]
  dsimp only
  have hsum := sumOutstanding_updateFirstMember hm
    (fun _ => { m with borrowed_books := eraseFirst bid m.borrowed_books,
                       history := m.history ++ ["Returned \x27" ++ b.name ++ "\x27"] }) bid
  dsimp only at hsum
  have hcnt := countId_eraseFirst_self hh
  omega

/-- C1: the claim states that available copies plus outstanding loans always
equal the copies value recorded at catalog entry or at the last
`update_book`.  Counterexample: add a book with one copy, borrow it, then
`update_book(copies=1)` succeeds (1 ≥ 1 borrowed) and sets the available
count to 1 while one loan is still outstanding, so the sum is 2, not the
last-set value 1. -/
theorem C1_counterexample :
    ((runOps [Op.addBook 1 "T" "A" 1, Op.addMember 101 "Alice",
        Op.issueBook 101 1]).update_book 1 none none (some 1)).2
      = "Book updated successfully" ∧
    availPlusOut ((runOps [Op.addBook 1 "T" "A" 1, Op.addMember 101 "Alice",
        Op.issueBook 101 1]).update_book 1 none none (some 1)).1 1 = 2 ∧
    availPlusOut ((runOps [Op.addBook 1 "T" "A" 1, Op.addMember 101 "Alice",
        Op.issueBook 101 1]).update_book 1 none none (some 1)).1 1 ≠ 1 := by
  decide

/-- C1 (amended): available copies plus outstanding loans is conserved by
every `issue_book` and `return_book` (so it stays equal to its value at the
book's entry, or at the last `update_book` — which is the new available
count plus the loans outstanding at that moment); a successful issue
decrements the available count by exactly 1 and adds exactly one loan, and
a successful return increments it by exactly 1 and removes exactly one
loan. -/
theorem C1_issue_return_conservation (lib : Library) (mid bid : Nat) (m : Member) (b : Book)
    (hm : findMember lib.members mid = some m) (hb : findBook lib.books bid = some b) :
    (∀ (l : Library) (mi bi t : Nat),
      availPlusOut (l.issue_book mi bi).1 t = availPlusOut l t) ∧
    (∀ (l : Library) (mi bi t : Nat),
      availPlusOut (l.return_book mi bi).1 t = availPlusOut l t) ∧
    (b.copies > 0 →
      (findBook (lib.issue_book mid bid).1.books bid).map Book.copies = some (b.copies - 1) ∧
      sumOutstanding (lib.issue_book mid bid).1.members bid
        = sumOutstanding lib.members bid + 1) ∧
    (hasId bid m.borrowed_books = true →
      (findBook (lib.return_book mid bid).1.books bid).map Book.copies = some (b.copies + 1) ∧
      sumOutstanding (lib.return_book mid bid).1.members bid + 1
        = sumOutstanding lib.members bid) := by
  refine ⟨fun l mi bi t => availPlusOut_issue l mi bi t,
          fun l mi bi t => availPlusOut_return l mi bi t, ?_, ?_⟩
  · intro hc
    refine ⟨?_, issue_success_sum hm hb hc⟩
    rw [issue_success_findBook hm hb hc]
    rfl
  · intro hh
    refine ⟨?_, return_success_sum hm hb hh⟩
    rw [return_success_findBook hm hb hh]
    rfl

/-- Witness for C1 at a concrete state: Alice holds one copy of book 1 and
one copy is still available. -/
theorem C1_witness :
    availPlusOut (wlib2.issue_book 101 1).1 1 = availPlusOut wlib2 1 ∧
    availPlusOut (wlib2.return_book 101 1).1 1 = availPlusOut wlib2 1 ∧
    (findBook (wlib2.issue_book 101 1).1.books 1).map Book.copies = some 1 ∧
    sumOutstanding (wlib2.issue_book 101 1).1.members 1 = 2 ∧
    (findBook (wlib2.return_book 101 1).1.books 1).map Book.copies = some 3 ∧
    sumOutstanding (wlib2.return_book 101 1).1.members 1 + 1 = 1 := by
  have h := C1_issue_return_conservation wlib2 101 1 wmember2 wbook2 rfl rfl
  have h3 := h.2.2.1 (by decide)
  have h4 := h.2.2.2 (by decide)
  exact ⟨h.1 wlib2 101 1 1, h.2.1 wlib2 101 1 1, h3.1, by rw [h3.2]; decide, h4.1, h4.2⟩

theorem findBook_map_copies_updateFirst (books : List Book) (bid tid : Nat) (f : Book → Book)
    (hid : ∀ x, (f x).entity_id = x.entity_id) (hcop : ∀ x, (f x).copies = x.copies) :
    (findBook (updateFirstBook books bid f) tid).map Book.copies
      = (findBook books tid).map Book.copies := by
  induction books with
  | nil => rfl
  | cons x rest ih =>
      cases hx : x.entity_id == bid
      · cases hxt : x.entity_id == tid <;> simp [updateFirstBook, hx, findBook, hxt, ih]
      · have h1 : ((f x).entity_id == tid) = (x.entity_id == tid) := by rw [hid]
        cases hxt : x.entity_id == tid <;>
          simp [updateFirstBook, hx, findBook, hxt, h1, hcop]

theorem updTitle_members (lib : Library) (bid : Nat) (title : Option String) :
    (updTitle lib bid title).members = lib.members := by
  cases title with
  | none => rfl
  | some t => cases h : t == "" <;> simp [updTitle, h]

theorem updTitle_map_copies (lib : Library) (bid : Nat) (title : Option String) (tid : Nat) :
    (findBook (updTitle lib bid title).books tid).map Book.copies
      = (findBook lib.books tid).map Book.copies := by
  cases title with
  | none => rfl
  | some t =>
      cases h : t == "" <;> simp only [updTitle, h, Bool.false_eq_true, if_false, if_true]
      refine findBook_map_copies_updateFirst _ _ _ _ ?_ ?_ <;> exact fun x => rfl

theorem updAuthor_pass {lib : Library} {bid : Nat} {author : Option String}
    (hap : authorPass author = true) :
    ∃ lib2, updAuthor lib bid author = some lib2 ∧ lib2.members = lib.members ∧
      ∀ tid, (findBook lib2.books tid).map Book.copies
        = (findBook lib.books tid).map Book.copies := by
  cases author with
  | none => exact ⟨lib, rfl, rfl, fun _ => rfl⟩
  | some a =>
      cases he : a == ""
      · have hfm : fullmatchName a = true := by
          simpa [authorPass, he] using hap
        refine ⟨{ lib with
            books := updateFirstBook lib.books bid (fun x => { x with author := a }) },
          by simp only [updAuthor, he, Bool.false_eq_true, if_false, hfm, if_true],
          rfl, fun tid => ?_⟩
        refine findBook_map_copies_updateFirst _ _ _ _ ?_ ?_ <;> exact fun x => rfl
      · exact ⟨lib, by simp [updAuthor, he], rfl, fun _ => rfl⟩

theorem updCopies_none (lib : Library) (bid : Nat) :
    updCopies lib bid none = (lib, "Book updated successfully") := rfl

theorem updCopies_neg {c : Int} (hc : c < 0) (lib : Library) (bid : Nat) :
    updCopies lib bid (some c) = (lib, "Copies must be a positive integer") := by
  simp [updCopies, hc]

theorem updCopies_below {c : Int} (lib : Library) (bid : Nat)
    (h0 : 0 ≤ c) (hlt : c < (sumOutstanding lib.members bid : Int)) :
    updCopies lib bid (some c)
      = (lib, "Cannot set copies to " ++ toString c ++ " as "
          ++ toString (sumOutstanding lib.members bid) ++ " are currently borrowed") := by
  simp [updCopies, not_lt.2 h0, hlt]

/-- C2: the claim states every validation-failure return of `update_book`
leaves the whole catalog unchanged, in particular that a valid title
together with an invalid author leaves the title unchanged.
Counterexample: the title block runs before the author check, so
`update_book(1, title="New Title", author="123Invalid")` reports
`Invalid author name` with the title already replaced. -/
theorem C2_counterexample :
    ((runOps [Op.addBook 1 "Old Title" "A" 3]).update_book 1
        (some "New Title") (some "123Invalid") none).2 = "Invalid author name" ∧
    (findBook ((runOps [Op.addBook 1 "Old Title" "A" 3]).update_book 1
        (some "New Title") (some "123Invalid") none).1.books 1).map Book.name
      = some "New Title" ∧
    (findBook ((runOps [Op.addBook 1 "Old Title" "A" 3]).update_book 1
        (some "New Title") (some "123Invalid") none).1.books 1).map Book.name
      ≠ some "Old Title" := by
  decide

/-- C2 (amended): a validation-failure return of `update_book` leaves the
member registry and every field checked at or after the failing point
unchanged, but field updates applied earlier in the call survive: an
`Invalid author name` failure leaves the author, copies and the other books
unchanged while a provided non-empty title has already been applied; the
two copies failures leave every book's copies field unchanged. -/
theorem C2_update_book_partial_frame (lib : Library) (bid : Nat) (b : Book)
    (hb : findBook lib.books bid = some b) :
    (∀ (t a : String) (copies : Option Int), t ≠ "" → a ≠ "" → fullmatchName a = false →
      (lib.update_book bid (some t) (some a) copies).2 = "Invalid author name" ∧
      (lib.update_book bid (some t) (some a) copies).1.members = lib.members ∧
      findBook (lib.update_book bid (some t) (some a) copies).1.books bid
        = some { b with name := t } ∧
      (∀ tid, tid ≠ bid →
        findBook (lib.update_book bid (some t) (some a) copies).1.books tid
          = findBook lib.books tid)) ∧
    (∀ (title author : Option String) (c : Int), authorPass author = true → c < 0 →
      (lib.update_book bid title author (some c)).2 = "Copies must be a positive integer" ∧
      (lib.update_book bid title author (some c)).1.members = lib.members ∧
      (∀ tid, (findBook (lib.update_book bid title author (some c)).1.books tid).map Book.copies
        = (findBook lib.books tid).map Book.copies)) ∧
    (∀ (title author : Option String) (c : Int), authorPass author = true → 0 ≤ c →
      c < (sumOutstanding lib.members bid : Int) →
      (lib.update_book bid title author (some c)).2
        = "Cannot set copies to " ++ toString c ++ " as "
            ++ toString (sumOutstanding lib.members bid) ++ " are currently borrowed" ∧
      (lib.update_book bid title author (some c)).1.members = lib.members ∧
      (∀ tid, (findBook (lib.update_book bid title author (some c)).1.books tid).map Book.copies
        = (findBook lib.books tid).map Book.copies)) := by
  refine ⟨?_, ?_, ?_⟩
  · intro t a copies ht ha hv
    have ht' : (t == "") = false := by simpa using ht
    have ha' : (a == "") = false := by simpa using ha
    have hred : lib.update_book bid (some t) (some a) copies
        = ({ lib with books := updateFirstBook lib.books bid (fun x => { x with name := t }) },
           "Invalid author name") := by
      simp only [Library.update_book, hb, updTitle, ht', Bool.false_eq_true, if_false,
        updAuthor, ha', hv]
    rw [hred]
    refine ⟨rfl, rfl, ?_, ?_⟩
    · refine findBook_updateFirstBook_self hb ?_
      rfl
    · intro tid htid
      refine findBook_updateFirstBook_other hb ?_ htid
      rfl
  · intro title author c hap hc
    obtain ⟨lib2, h2, hmem2, hcop2⟩ :=
      @updAuthor_pass (updTitle lib bid title) bid author hap
    have hred : lib.update_book bid title author (some c) = updCopies lib2 bid (some c) := by
      simp only [Library.update_book, hb, h2]
    rw [hred, updCopies_neg hc]
    refine ⟨rfl, hmem2.trans (updTitle_members lib bid title), fun tid => ?_⟩
    exact (hcop2 tid).trans (updTitle_map_copies lib bid title tid)
  · intro title author c hap h0 hlt
    obtain ⟨lib2, h2, hmem2, hcop2⟩ :=
      @updAuthor_pass (updTitle lib bid title) bid author hap
    have hmem : lib2.members = lib.members :=
      hmem2.trans (updTitle_members lib bid title)
    have hred : lib.update_book bid title author (some c) = updCopies lib2 bid (some c) := by
      simp only [Library.update_book, hb, h2]
    have hlt2 : c < (sumOutstanding lib2.members bid : Int) := by rw [hmem]; exact hlt
    rw [hred, updCopies_below lib2 bid h0 hlt2]
    refine ⟨by rw [hmem], hmem, fun tid => ?_⟩
    exact (hcop2 tid).trans (updTitle_map_copies lib bid title tid)

/-- Witness for C2 at a concrete state: book 1 has 2 copies and Alice holds
one loan of it. -/
theorem C2_witness :
    (wlib2.update_book 1 (some "New Title") (some "123Invalid") none).2
      = "Invalid author name" ∧
    findBook (wlib2.update_book 1 (some "New Title") (some "123Invalid") none).1.books 1
      = some { wbook2 with name := "New Title" } ∧
    (wlib2.update_book 1 none none (some (-1))).2 = "Copies must be a positive integer" ∧
    (wlib2.update_book 1 none none (some 0)).2
      = "Cannot set copies to 0 as 1 are currently borrowed" ∧
    (findBook (wlib2.update_book 1 none none (some 0)).1.books 1).map Book.copies
      = some 2 := by
  have h := C2_update_book_partial_frame wlib2 1 wbook2 rfl
  have h1 := h.1 "New Title" "123Invalid" none (by decide) (by decide) (by decide)
  have h2 := h.2.1 none none (-1) rfl (by decide)
  have h3 := h.2.2 none none 0 rfl (by decide) (by decide)
  refine ⟨h1.1, h1.2.2.1, h2.1, ?_, ?_⟩
  · rw [h3.1]; decide
  · rw [h3.2.2 1]; decide

/-- C3: the claim states a member's borrowed collection never contains
duplicates, in particular that issuing the same book twice with copies ≥ 2
does not produce two entries.  Counterexample: `borrow_book` performs no
duplicate check, so after adding a 2-copy book and issuing it twice to
Alice her borrowed list holds book 1 twice (2 > 1 occurrences). -/
theorem C3_counterexample :
    (findMember (runOps [Op.addBook 1 "T" "A" 2, Op.addMember 101 "Alice",
        Op.issueBook 101 1, Op.issueBook 101 1]).members 101).map
      (fun m => countId 1 m.borrowed_books) = some 2 := by
  decide

/-- C3 (amended): the borrowed collection is an ordered list with no
duplicate filtering — every successful `issue_book` appends one more entry
for the book to the end of the member's list, whether or not the member
already holds it, so two issues with copies ≥ 2 leave two entries. -/
theorem C3_issue_appends_entry (lib : Library) (mid bid : Nat) (m : Member) (b : Book)
    (hm : findMember lib.members mid = some m) (hb : findBook lib.books bid = some b)
    (hc : b.copies > 0) :
    findMember (lib.issue_book mid bid).1.members mid =
      some { m with borrowed_books := m.borrowed_books ++ [bid],
                    history := m.history ++ ["Borrowed \x27" ++ b.name ++ "\x27"] } ∧
    (findMember (lib.issue_book mid bid).1.members mid).map
        (fun x => countId bid x.borrowed_books)
      = some (countId bid m.borrowed_books + 1) := by
  have h1 := issue_success_findMember hm hb hc
  refine ⟨h1, ?_⟩
  rw [h1]
  simp [countId_append]

/-- Witness for C3: Alice already holds book 1; a second issue leaves two
entries for it. -/
theorem C3_witness :
    findMember (wlib2.issue_book 101 1).1.members 101 =
      some { wmember2 with borrowed_books := wmember2.borrowed_books ++ [1],
                           history := wmember2.history ++ ["Borrowed \x27T\x27"] } ∧
    (findMember (wlib2.issue_book 101 1).1.members 101).map
      (fun x => countId 1 x.borrowed_books) = some 2 := by
  have h := C3_issue_appends_entry wlib2 101 1 wmember2 wbook2 rfl rfl (by decide)
  exact ⟨h.1, by rw [h.2]; decide⟩

theorem opsNonneg_cons (op : Op) (rest : List Op) :
    opsNonneg (op :: rest) = (opNonneg op && opsNonneg rest) := by
  cases op <;> simp [opsNonneg, opNonneg]

theorem all_updateFirstBook_of {books : List Book} {P : Book → Bool} (hall : books.all P = true)
    {bid : Nat} {f : Book → Book} (hf : ∀ x, P x = true → P (f x) = true) :
    (updateFirstBook books bid f).all P = true := by
  induction books with
  | nil => rfl
  | cons x rest ih =>
      simp only [List.all_cons, Bool.and_eq_true] at hall
      cases hx : x.entity_id == bid
      · simp only [updateFirstBook, hx, Bool.false_eq_true, if_false, List.all_cons,
          Bool.and_eq_true]
        exact ⟨hall.1, ih hall.2⟩
      · simp only [updateFirstBook, hx, if_true, List.all_cons, Bool.and_eq_true]
        exact ⟨hf x hall.1, hall.2⟩

theorem updTitle_allNonneg {lib : Library} (h : allCopiesNonneg lib = true)
    (bid : Nat) (title : Option String) : allCopiesNonneg (updTitle lib bid title) = true := by
  cases title with
  | none => exact h
  | some t =>
      cases he : t == ""
      · simp only [updTitle, he, Bool.false_eq_true, if_false, allCopiesNonneg] at h ⊢
        exact all_updateFirstBook_of h (fun x hx => hx)
      · simpa [updTitle, he] using h

theorem updAuthor_allNonneg {lib lib2 : Library} {bid : Nat} {author : Option String}
    (heq : updAuthor lib bid author = some lib2) (h : allCopiesNonneg lib = true) :
    allCopiesNonneg lib2 = true := by
  cases author with
  | none => simp only [updAuthor] at heq; rw [← Option.some_inj.mp heq]; exact h
  | some a =>
      cases he : a == "" <;> simp only [updAuthor, he, Bool.false_eq_true, if_false,
        if_true] at heq
      · cases hfm : fullmatchName a <;> simp [hfm] at heq
        rw [← heq]
        simp only [allCopiesNonneg] at h ⊢
        exact all_updateFirstBook_of h (fun x hx => hx)
      · rw [← Option.some_inj.mp heq]; exact h

theorem updCopies_allNonneg {lib : Library} (h : allCopiesNonneg lib = true)
    (bid : Nat) (copies : Option Int) : allCopiesNonneg (updCopies lib bid copies).1 = true := by
  cases copies with
  | none => exact h
  | some c =>
      by_cases hc : c < 0
      · simpa [updCopies, hc] using h
      · by_cases hk : c < (sumOutstanding lib.members bid : Int)
        · simpa [updCopies, hc, hk] using h
        · simp only [updCopies, hc, hk, if_false]
          simp only [allCopiesNonneg] at h ⊢
          refine all_updateFirstBook_of h (fun x hx => ?_)
          simp only [decide_eq_true_eq] at hx ⊢
          omega

theorem applyOp_nonneg {lib : Library} (hlib : allCopiesNonneg lib = true) (op : Op)
    (hop : opNonneg op = true) : allCopiesNonneg (applyOp lib op) = true := by
  cases op with
  | addBook i t a c =>
      simp only [applyOp, Library.add_book]
      cases hex : (findBook lib.books i).isSome
      · simp only [Bool.false_eq_true, if_false]
        simp only [allCopiesNonneg] at hlib ⊢
        rw [List.all_append]
        simp only [hlib, Bool.true_and, List.all_cons, List.all_nil, Bool.and_true]
        simpa [opNonneg] using hop
      · simpa using hlib
  | removeBook i =>
      simp only [applyOp, Library.remove_book]
      cases hex : (findBook lib.books i).isSome
      · simpa using hlib
      · cases hh : anyHolds lib.members i
        · simp only [Bool.false_eq_true, if_false, if_true]
          simp only [allCopiesNonneg, removeBookId] at hlib ⊢
          exact all_filter_sub hlib _
        · simpa using hlib
  | updateBook i title author c =>
      simp only [applyOp, Library.update_book]
      cases hfb : findBook lib.books i with
      | none => exact hlib
      | some b0 =>
          have h1 := updTitle_allNonneg hlib i title
          cases ha : updAuthor (updTitle lib i title) i author with
          | none => exact h1
          | some lib2 => exact updCopies_allNonneg (updAuthor_allNonneg ha h1) i c
  | addMember i n =>
      simp only [applyOp, Library.add_member]
      cases hex : (findMember lib.members i).isSome <;> simpa using hlib
  | removeMember i =>
      simp only [applyOp, Library.remove_member]
      cases hfm : findMember lib.members i with
      | none => exact hlib
      | some m =>
          by_cases hbb : m.borrowed_books.isEmpty = false
          · simpa [Library.remove_member, hfm, hbb] using hlib
          · simp only [Library.remove_member, hfm, if_neg hbb]
            exact hlib
  | updateMember i n =>
      simp only [applyOp, Library.update_member]
      cases hfm : findMember lib.members i with
      | none => exact hlib
      | some m =>
          cases n with
          | none => exact hlib
          | some s =>
              by_cases he : (s == "") = true <;>
                by_cases hv : fullmatchName s = true <;>
                simp [he, hv] <;> exact hlib
  | issueBook mi bi =>
      simp only [applyOp]
      cases hm : findMember lib.members mi with
      | none => simpa [Library.issue_book, hm] using hlib
      | some m =>
          cases hb : findBook lib.books bi with
          | none => simpa [Library.issue_book, hm, hb] using hlib
          | some b =>
              by_cases hc : b.copies > 0
              · rw [issue_book_success hm hb hc]
                simp only [allCopiesNonneg] at hlib ⊢
                refine all_updateFirstBook hlib hb ?_
                simp only [decide_eq_true_eq]
                omega
              · rw [issue_book_unavailable hm hb hc]
                exact hlib
  | returnBook mi bi =>
      simp only [applyOp]
      cases hm : findMember lib.members mi with
      | none => simpa [Library.return_book, hm] using hlib
      | some m =>
          cases hb : findBook lib.books bi with
          | none => simpa [Library.return_book, hm, hb] using hlib
          | some b =>
              cases hh : hasId bi m.borrowed_books
              · rw [return_book_not_borrowed hm hb hh]
                exact hlib
              · rw [return_book_success hm hb hh]
                have hb0 : (0 ≤ b.copies) := by
                  have := findBook_all hb hlib
                  simpa using this
                simp only [allCopiesNonneg] at hlib ⊢
                refine all_updateFirstBook hlib hb ?_
                simp only [decide_eq_true_eq]
                omega

theorem foldl_nonneg (ops : List Op) : ∀ lib : Library, allCopiesNonneg lib = true →
    opsNonneg ops = true → allCopiesNonneg (ops.foldl applyOp lib) = true := by
  induction ops with
  | nil => exact fun lib h _ => h
  | cons op rest ih =>
      intro lib hlib hops
      rw [opsNonneg_cons, Bool.and_eq_true] at hops
      exact ih (applyOp lib op) (applyOp_nonneg hlib op hops.1) hops.2

/-- C4: the claim states no operation sequence from the empty catalog,
including `add_book`, can produce a negative copies field.  Counterexample:
`Library.add_book` performs no validation, so adding a book constructed
with copies = -1 puts a negative counter in the registry. -/
theorem C4_counterexample :
    allCopiesNonneg (runOps [Op.addBook 1 "T" "A" (-1)]) = false ∧
    (findBook (runOps [Op.addBook 1 "T" "A" (-1)]).books 1).map Book.copies
      = some (-1) := by
  decide

/-- C4 (amended): in every state reached from the empty catalog by a
sequence whose `add_book` calls all supply non-negative copies, every
book's copies field is ≥ 0 — `issue_book` only decrements a strictly
positive counter, `return_book` increments, and `update_book` rejects
negative values; `add_book` itself performs no such check. -/
theorem C4_nonneg_invariant (ops : List Op) (h : opsNonneg ops = true) :
    allCopiesNonneg (runOps ops) = true :=
  foldl_nonneg ops emptyLibrary rfl h

/-- Witness for C4: a full borrow/return/update/remove run with
non-negative adds keeps all counters non-negative. -/
theorem C4_witness :
    opsNonneg [Op.addBook 1 "T" "A" 2, Op.addMember 101 "Alice", Op.issueBook 101 1,
      Op.returnBook 101 1, Op.updateBook 1 none none (some 5), Op.removeBook 1] = true ∧
    allCopiesNonneg (runOps [Op.addBook 1 "T" "A" 2, Op.addMember 101 "Alice",
      Op.issueBook 101 1, Op.returnBook 101 1, Op.updateBook 1 none none (some 5),
      Op.removeBook 1]) = true :=
  ⟨by decide, C4_nonneg_invariant _ (by decide)⟩

/-- C5: `issue_book` checks the member before the book (so with both absent
it reports the member failure), and with both present either performs the
borrow — decrement by 1, one new entry in the member's borrowed list, one
in the member's activity log, one in the book's transaction log, success
text — when copies > 0, or reports the availability status and changes
nothing when copies = 0. -/
theorem C5_issue_book_contract (lib : Library) (mid bid : Nat) :
    (findMember lib.members mid = none →
      lib.issue_book mid bid = (lib, "Member not found")) ∧
    (∀ m, findMember lib.members mid = some m → findBook lib.books bid = none →
      lib.issue_book mid bid = (lib, "Book not found")) ∧
    (∀ m b, findMember lib.members mid = some m → findBook lib.books bid = some b →
      b.copies > 0 →
      (lib.issue_book mid bid).2 = m.name ++ " borrowed \x27" ++ b.name ++ "\x27" ∧
      findBook (lib.issue_book mid bid).1.books bid =
        some { b with copies := b.copies - 1,
                      borrow_history := b.borrow_history ++ [m.name ++ " borrowed this book"] } ∧
      findMember (lib.issue_book mid bid).1.members mid =
        some { m with borrowed_books := m.borrowed_books ++ [bid],
                      history := m.history ++ ["Borrowed \x27" ++ b.name ++ "\x27"] }) ∧
    (∀ m b, findMember lib.members mid = some m → findBook lib.books bid = some b →
      b.copies = 0 → lib.issue_book mid bid = (lib, "Book is not available")) := by
  refine ⟨?_, ?_, ?_, ?_⟩
  · intro hm; simp [Library.issue_book, hm]
  · intro m hm hb; simp [Library.issue_book, hm, hb]
  · intro m b hm hb hc
    exact ⟨by rw [issue_book_success hm hb hc], issue_success_findBook hm hb hc,
      issue_success_findMember hm hb hc⟩
  · intro m b hm hb hz
    exact issue_book_unavailable hm hb (by omega)

/-- Witness for C5: both lookup failures, a successful issue on a 3-copy
book, and the availability status on a 0-copy book. -/
theorem C5_witness :
    wlib.issue_book 999 1 = (wlib, "Member not found") ∧
    wlib.issue_book 101 999 = (wlib, "Book not found") ∧
    (wlib.issue_book 101 1).2 = "Alice borrowed \x27Python Programming\x27" ∧
    findBook (wlib.issue_book 101 1).1.books 1 =
      some { wbook with copies := 2, borrow_history := ["Alice borrowed this book"] } ∧
    findMember (wlib.issue_book 101 1).1.members 101 =
      some { wmember with borrowed_books := [1],
                          history := ["Borrowed \x27Python Programming\x27"] } ∧
    wlib0.issue_book 101 1 = (wlib0, "Book is not available") := by
  have h999 := C5_issue_book_contract wlib 999 1
  have h99 := C5_issue_book_contract wlib 101 999
  have h := C5_issue_book_contract wlib 101 1
  have h0 := C5_issue_book_contract wlib0 101 1
  have h3 := h.2.2.1 wmember wbook rfl rfl (by decide)
  refine ⟨h999.1 rfl, h99.2.1 wmember rfl rfl, ?_, ?_, ?_,
    h0.2.2.2 wmember wbook0 rfl rfl rfl⟩
  · rw [h3.1]; rfl
  · rw [h3.2.1]; rfl
  · rw [h3.2.2]; rfl

/-- C6: the claim asserts for EVERY state with member m and book b that
after issue then return, a second `return_book` reports the
not-borrowed status.  Counterexample: start from a reachable state in
which Alice already holds book 1 (2 copies); issue then return removes
only one of her two entries (`list.remove` drops the first occurrence),
so the second return succeeds with `"Alice returned 'T'"` instead of
`"This book was not borrowed by the member"`. -/
theorem C6_counterexample :
    ((((runOps [Op.addBook 1 "T" "A" 2, Op.addMember 101 "Alice", Op.issueBook 101 1]
        ).issue_book 101 1).1.return_book 101 1).1.return_book 101 1).2
      = "Alice returned \x27T\x27" ∧
    ((((runOps [Op.addBook 1 "T" "A" 2, Op.addMember 101 "Alice", Op.issueBook 101 1]
        ).issue_book 101 1).1.return_book 101 1).1.return_book 101 1).2
      ≠ "This book was not borrowed by the member" := by
  decide

/-- C6 (amended): when member m does NOT already hold book b, issue then
return restores b's copies and m's borrowed list exactly, and an immediate
second `return_book` reports the not-borrowed status and leaves the whole
catalog unchanged. -/
theorem C6_issue_return_roundtrip (lib : Library) (mid bid : Nat) (m : Member) (b : Book)
    (hm : findMember lib.members mid = some m) (hb : findBook lib.books bid = some b)
    (hnot : hasId bid m.borrowed_books = false) :
    (findBook ((lib.issue_book mid bid).1.return_book mid bid).1.books bid).map Book.copies
      = some b.copies ∧
    (findMember ((lib.issue_book mid bid).1.return_book mid bid).1.members mid).map
        Member.borrowed_books = some m.borrowed_books ∧
    (((lib.issue_book mid bid).1.return_book mid bid).1.return_book mid bid).2
      = "This book was not borrowed by the member" ∧
    (((lib.issue_book mid bid).1.return_book mid bid).1.return_book mid bid).1
      = ((lib.issue_book mid bid).1.return_book mid bid).1 := by
  have hcnt : countId bid m.borrowed_books = 0 := (hasId_eq_false_iff bid _).mp hnot
  by_cases hc : b.copies > 0
  · have hm1 := issue_success_findMember hm hb hc
    have hb1 := issue_success_findBook hm hb hc
    have hh1 : hasId bid (m.borrowed_books ++ [bid]) = true :=
      hasId_append_self bid m.borrowed_books
    have hm2 := return_success_findMember hm1 hb1 hh1
    have hb2 := return_success_findBook hm1 hb1 hh1
    have herase : eraseFirst bid (m.borrowed_books ++ [bid]) = m.borrowed_books :=
      eraseFirst_append_of_countZero hcnt
    have hh2 : hasId bid (eraseFirst bid (m.borrowed_books ++ [bid])) = false := by
      rw [herase]; exact hnot
    have hret2 := return_book_not_borrowed hm2 hb2 hh2
    refine ⟨?_, ?_, ?_, ?_⟩
    · rw [hb2]
      show some (b.copies - 1 + 1) = some b.copies
      rw [Int.sub_add_cancel]
    · rw [hm2]
      show some (eraseFirst bid (m.borrowed_books ++ [bid])) = some m.borrowed_books
      rw [herase]
    · rw [hret2]
    · rw [hret2]
  · have hs1 := issue_book_unavailable hm hb hc
    have hret := return_book_not_borrowed hm hb hnot
    rw [hs1]
    refine ⟨?_, ?_, ?_, ?_⟩
    · show (findBook (lib.return_book mid bid).1.books bid).map Book.copies = some b.copies
      rw [hret]
      show (findBook lib.books bid).map Book.copies = some b.copies
      rw [hb]; rfl
    · show (findMember (lib.return_book mid bid).1.members mid).map Member.borrowed_books
        = some m.borrowed_books
      rw [hret]
      show (findMember lib.members mid).map Member.borrowed_books = some m.borrowed_books
      rw [hm]; rfl
    · show ((lib.return_book mid bid).1.return_book mid bid).2
        = "This book was not borrowed by the member"
      rw [hret]
      show (lib.return_book mid bid).2 = "This book was not borrowed by the member"
      rw [hret]
    · show ((lib.return_book mid bid).1.return_book mid bid).1 = (lib.return_book mid bid).1
      rw [hret]
      show (lib.return_book mid bid).1 = lib
      rw [hret]

/-- Witness for C6: Alice holds nothing; issue then return of book 1
restores 3 copies and the empty borrowed list, and a second return
reports the not-borrowed status without changing the state. -/
theorem C6_witness :
    (findBook ((wlib.issue_book 101 1).1.return_book 101 1).1.books 1).map Book.copies
      = some 3 ∧
    (findMember ((wlib.issue_book 101 1).1.return_book 101 1).1.members 101).map
        Member.borrowed_books = some [] ∧
    (((wlib.issue_book 101 1).1.return_book 101 1).1.return_book 101 1).2
      = "This book was not borrowed by the member" ∧
    (((wlib.issue_book 101 1).1.return_book 101 1).1.return_book 101 1).1
      = ((wlib.issue_book 101 1).1.return_book 101 1).1 := by
  have h := C6_issue_return_roundtrip wlib 101 1 wmember wbook rfl rfl rfl
  exact ⟨h.1, h.2.1, h.2.2.1, h.2.2.2⟩

/-- C7: `remove_book` reports `Book not found` for an absent id; reports
the borrowed conflict and changes nothing when some member holds a book
with that id; otherwise deletes exactly that book, reports success, and
leaves all other books and all members unchanged. -/
theorem C7_remove_book_contract (lib : Library) (bid : Nat) :
    (findBook lib.books bid = none → lib.remove_book bid = (lib, "Book not found")) ∧
    (∀ b, findBook lib.books bid = some b → anyHolds lib.members bid = true →
      lib.remove_book bid = (lib, "Cannot remove - book is currently borrowed")) ∧
    (∀ b, findBook lib.books bid = some b → anyHolds lib.members bid = false →
      (lib.remove_book bid).2 = "Book removed successfully" ∧
      (lib.remove_book bid).1.members = lib.members ∧
      findBook (lib.remove_book bid).1.books bid = none ∧
      (∀ tid, tid ≠ bid →
        findBook (lib.remove_book bid).1.books tid = findBook lib.books tid)) := by
  refine ⟨?_, ?_, ?_⟩
  · intro h; simp [Library.remove_book, h]
  · intro b hb hh; simp [Library.remove_book, hb, hh]
  · intro b hb hh
    have hred : lib.remove_book bid
        = ({ lib with books := removeBookId lib.books bid }, "Book removed successfully") := by
      simp [Library.remove_book, hb, hh]
    rw [hred]
    exact ⟨rfl, rfl, findBook_removeBookId_self _ _,
      fun tid ht => findBook_removeBookId_other ht _⟩

/-- Witness for C7: an absent id, a removal blocked by Alice's loan, and a
successful removal. -/
theorem C7_witness :
    wlib.remove_book 999 = (wlib, "Book not found") ∧
    wlib2.remove_book 1 = (wlib2, "Cannot remove - book is currently borrowed") ∧
    (wlib.remove_book 1).2 = "Book removed successfully" ∧
    (wlib.remove_book 1).1.members = wlib.members ∧
    findBook (wlib.remove_book 1).1.books 1 = none := by
  have h := C7_remove_book_contract wlib 1
  have h2 := C7_remove_book_contract wlib2 1
  have h9 := C7_remove_book_contract wlib 999
  have h3 := h.2.2 wbook rfl rfl
  exact ⟨h9.1 rfl, h2.2.1 wbook2 rfl rfl, h3.1, h3.2.1, h3.2.2.1⟩

/-- C8: `search_books` returns the formatted summaries of exactly the books
whose lowered title or author contains the lowered keyword as a substring,
in registry order, and returns the one-element sentinel — never the empty
list — when nothing matches.  (The embedding is a pure function, matching
the Python method, which reads but never writes the registries.) -/
theorem C8_search_books_spec (lib : Library) (keyword : String) :
    lib.search_books keyword
      = (if (lib.books.filter (fun b =>
            substrHit (lowerStr keyword) (lowerStr b.name) ||
            substrHit (lowerStr keyword) (lowerStr b.author))).isEmpty
         then ["No matching books found"]
         else (lib.books.filter (fun b =>
            substrHit (lowerStr keyword) (lowerStr b.name) ||
            substrHit (lowerStr keyword) (lowerStr b.author))).map Book.display_info) ∧
    lib.search_books keyword ≠ [] := by
  have hloop := searchLoop_eq (lowerStr keyword) lib.books
  constructor
  · simp only [Library.search_books]
    rw [hloop]
    cases hf : lib.books.filter (fun b =>
        substrHit (lowerStr keyword) (lowerStr b.name) ||
        substrHit (lowerStr keyword) (lowerStr b.author)) with
    | nil => simp
    | cons x xs => simp
  · simp only [Library.search_books]
    rw [hloop]
    cases hf : lib.books.filter (fun b =>
        substrHit (lowerStr keyword) (lowerStr b.name) ||
        substrHit (lowerStr keyword) (lowerStr b.author)) with
    | nil => simp
    | cons x xs => simp

/-- C9: with the empty keyword every book matches (the empty string is a
substring of everything), so a non-empty registry yields the summary of
every book, never the sentinel; the sentinel appears only for the empty
registry. -/
theorem C9_search_empty_keyword (lib : Library) :
    (lib.books ≠ [] →
      lib.search_books "" = lib.books.map Book.display_info ∧
      lib.search_books "" ≠ ["No matching books found"]) ∧
    (lib.books = [] → lib.search_books "" = ["No matching books found"]) := by
  have hall : lib.books.filter (fun b =>
      substrHit (lowerStr "") (lowerStr b.name) ||
      substrHit (lowerStr "") (lowerStr b.author)) = lib.books := by
    refine List.filter_eq_self.mpr (fun b _ => ?_)
    have h0 : lowerStr "" = [] := rfl
    rw [h0]
    simp [substrHit_nil]
  have hmain : lib.search_books ""
      = (if lib.books.isEmpty then ["No matching books found"]
         else lib.books.map Book.display_info) := by
    simp only [Library.search_books]
    rw [searchLoop_eq, hall]
    cases lib.books with
    | nil => simp
    | cons x xs => simp
  refine ⟨fun hne => ⟨?_, ?_⟩, fun hemp => ?_⟩
  · rw [hmain]
    cases hbs : lib.books with
    | nil => exact absurd hbs hne
    | cons x xs => simp
  · rw [hmain]
    cases hbs : lib.books with
    | nil => exact absurd hbs hne
    | cons x xs =>
        simp only [List.isEmpty_cons, Bool.false_eq_true, if_false, List.map_cons]
        intro hcon
        injection hcon with h1 h2
        exact display_info_ne_sentinel x h1
  · rw [hmain, hemp]
    rfl

/-- Witness for C9: the one-book catalog lists that book; the empty catalog
yields the sentinel. -/
theorem C9_witness :
    wlib.search_books "" = wlib.books.map Book.display_info ∧
    wlib.search_books "" ≠ ["No matching books found"] ∧
    emptyLibrary.search_books "" = ["No matching books found"] := by
  have h1 := (C9_search_empty_keyword wlib).1 (by decide)
  have h2 := (C9_search_empty_keyword emptyLibrary).2 rfl
  exact ⟨h1.1, h1.2, h2⟩

/-- C10: `update_book` with no field provided (title/author absent or
empty, copies absent) returns the success message and leaves the entire
catalog — the book's title, author, copies, transaction log, and everything
else — unchanged, whereas `update_member` with no name reports the
no-change status. -/
theorem C10_empty_update_noop (lib : Library) (bid mid : Nat) (b : Book) (m : Member)
    (hb : findBook lib.books bid = some b) (hm : findMember lib.members mid = some m) :
    (∀ title author, (title = none ∨ title = some "") → (author = none ∨ author = some "") →
      lib.update_book bid title author none = (lib, "Book updated successfully")) ∧
    lib.update_member mid none = (lib, "No changes made") ∧
    lib.update_member mid (some "") = (lib, "No changes made") := by
  refine ⟨?_, ?_, ?_⟩
  · rintro title author (rfl | rfl) (rfl | rfl) <;>
      simp [Library.update_book, hb, updTitle, updAuthor, updCopies]
  · simp [Library.update_member, hm]
  · simp [Library.update_member, hm]

/-- Witness for C10 on the one-book, one-member catalog. -/
theorem C10_witness :
    wlib.update_book 1 none none none = (wlib, "Book updated successfully") ∧
    wlib.update_book 1 (some "") (some "") none = (wlib, "Book updated successfully") ∧
    wlib.update_member 101 none = (wlib, "No changes made") ∧
    wlib.update_member 101 (some "") = (wlib, "No changes made") := by
  have h := C10_empty_update_noop wlib 1 101 wbook wmember rfl rfl
  exact ⟨h.1 none none (Or.inl rfl) (Or.inl rfl),
    h.1 (some "") (some "") (Or.inr rfl) (Or.inr rfl), h.2.1, h.2.2⟩

end LMS

